import Mathlib

/-!
Verification of the app authentication routines of `safe_authenticator`
(`src/safe_authenticator/src/app_auth.rs`).

The stateful network client is embedded as a state monad
`M α = World → Except AuthError α × World` preserving the state on failure,
so that effects already performed remain visible even when a later pipeline
step fails.  External collaborators (registry config, access container,
auth-key registrar, app-container provisioner, container-permission resolver)
live outside this file's source; they are modelled from the spec's interface
contracts and are marked as such in their doc comments.  The state carries a
log of every write attempt against the access container and the auth-key
list, which makes the single-attempt (no internal retry) properties
observable.
-/

set_option maxHeartbeats 1000000

/-- The fixed enumeration of container permissions (`ffi::Permission`). -/
inductive Permission where
  | Read
  | Insert
  | Update
  | Delete
  | ManagePermissions
deriving DecidableEq

/-- A set of permissions (`BTreeSet<Permission>`). -/
abbrev PermSet := Finset Permission

/-- Descriptor of a mutable-data object (`MDataInfo`): a name plus a type
tag.  The authenticator treats it opaquely. -/
structure MDataInfo where
  name : String
  typeTag : Nat
deriving DecidableEq

/-- `AccessContInfo` is built from the access container's `MDataInfo`
(`AccessContInfo::from_mdata_info`); modelled as the descriptor itself. -/
abbrev AccessContInfo := MDataInfo

/-- Application cryptographic key material (`AppKeys`): generated once under
the network owner's key context and a keypair for network authorization plus
a symmetric key; modelled as the owner key it was minted under, the public
signing key and the symmetric key. -/
structure AppKeys where
  owner_key : Nat
  sign_pk : Nat
  enc_key : Nat
deriving DecidableEq

/-- Application identity (`AppExchangeInfo`): stable id plus metadata. -/
structure AppExchangeInfo where
  id : String
  name : String
  vendor : String
deriving DecidableEq

/-- Registry record (`AppInfo`): identity plus keys. -/
structure AppInfo where
  info : AppExchangeInfo
  keys : AppKeys
deriving DecidableEq

/-- Errors of the routing layer (`routing::ClientError`), restricted to the
variants the authenticator inspects, plus a catch-all for the rest. -/
inductive ClientError where
  | NoSuchEntry
  | InvalidSuccessor (current : Nat)
  | OtherClient (code : Nat)
deriving DecidableEq

/-- Errors of the core layer (`safe_core::CoreError`). -/
inductive CoreError where
  | RoutingClientError (e : ClientError)
  | OtherCore (code : Nat)
deriving DecidableEq

/-- Authenticator errors (`AuthError`). `Unexpected` carries the message of
`AuthError::from(&str)` / `AuthError::Unexpected`. -/
inductive AuthError where
  | CoreError (e : CoreError)
  | Unexpected (msg : String)
deriving DecidableEq

/-- The error produced by a manifest/entry read when the entry is absent. -/
def noSuchEntryError : AuthError :=
  AuthError.CoreError (CoreError.RoutingClientError ClientError.NoSuchEntry)

/-- The error produced by a CAS write at a wrong target version. -/
def versionConflictError (current : Nat) : AuthError :=
  AuthError.CoreError (CoreError.RoutingClientError (ClientError.InvalidSuccessor current))

/-- Modelled from the spec: `AccessContInfo::from_mdata_info` is an external
conversion; the spec treats the credential's manifest pointer as the
manifest's descriptor, so the conversion is the identity and succeeds. -/
def AccessContInfo.from_mdata_info (dir : MDataInfo) : Except AuthError AccessContInfo :=
  .ok dir

/-- Association-list map lookup (`HashMap::get`). -/
def lookupKey {α : Type} (m : List (String × α)) (k : String) : Option α :=
  (List.find? (fun p => p.1 == k) m).map Prod.snd

/-- Association-list map insert-or-overwrite (`HashMap::insert`). -/
def insertKey {α : Type} (m : List (String × α)) (k : String) (v : α) : List (String × α) :=
  (k, v) :: m.filter (fun p => p.1 != k)

/-- Per-application access container entry (`AccessContainerEntry`):
container name to descriptor plus permissions. -/
abbrev AccessContainerEntry := List (String × (MDataInfo × PermSet))

instance : DecidableEq AccessContainerEntry := inferInstance

instance : DecidableEq (Option AccessContainerEntry) := inferInstance

instance : DecidableEq (Nat × Option AccessContainerEntry) := inferInstance

instance : DecidableEq (List (String × (Nat × Option AccessContainerEntry))) := inferInstance

/-- Registry listing (`Apps`): map from the hash of the app id to the
stored record. -/
abbrev Apps := List (String × AppInfo)

/-- Modelled from the spec: `tiny_keccak::sha3_256`, a deterministic
collision-free hash of the identifier; modelled as a tagging injection. -/
def sha3_256 (s : String) : String :=
  "sha3-" ++ s

/-- Authorization request (`AuthReq`). -/
structure AuthReq where
  app : AppExchangeInfo
  app_container : Bool
  containers : List (String × PermSet)

instance : DecidableEq AuthReq := fun a b => by
  cases a
  cases b
  rw [AuthReq.mk.injEq]
  exact inferInstance

/-- Credential bundle handed back to the caller (`AuthGranted`). -/
structure AuthGranted where
  app_keys : AppKeys
  bootstrap_config : Nat
  access_container : AccessContInfo
deriving DecidableEq

/-- The three-way app state classification (`AppState`). -/
inductive AppState where
  | Authenticated
  | Revoked
  | NotAuthenticated
deriving DecidableEq

/-- The full permission set granted on the dedicated container
(the `btree_set!` literal in `insert_app_container`). -/
def fullAccess : PermSet :=
  {Permission.Read, Permission.Insert, Permission.Update,
   Permission.Delete, Permission.ManagePermissions}

/-- Store info about the dedicated container in the access container entry
(`insert_app_container`); the source wraps the result in an immediately
ready future, so it is a pure transform. -/
def insert_app_container (permissions : AccessContainerEntry) (app_id : String)
    (app_container_info : MDataInfo) : AccessContainerEntry :=
  insertKey permissions ("apps/" ++ app_id) (app_container_info, fullAccess)

/-- The observable network and session state seen by the authenticator.
`manifest` is the access container: per application id, the entry version
and the (optional) entry value.  `putLog` records every attempted entry
write `(app id, target version)`; `insAuthLog` records every attempted
auth-key append `(key, target version)`; both log the attempt whether or
not it succeeds, making write counts observable. -/
structure World where
  ownerKey : Nat
  freshCtr : Nat
  appsVersion : Nat
  apps : Apps
  accessContainerDir : MDataInfo
  manifest : List (String × (Nat × Option AccessContainerEntry))
  authKeys : List Nat
  authKeysVersion : Nat
  revocationQueue : Option (Nat × List String)
  appContainers : List (String × MDataInfo)
  putLog : List (String × Nat)
  insAuthLog : List (Nat × Nat)

instance : DecidableEq World := fun a b => by
  cases a
  cases b
  rw [World.mk.injEq]
  exact inferInstance

/-- The effect monad of the authenticator: a fallible state transformer
over `World`.  The state is kept on failure — network effects performed
before the failing step stay performed. -/
def M (α : Type) : Type :=
  World → Except AuthError α × World

/-- `pure` for `M` (the source's `ok!`). -/
def M.pure {α : Type} (a : α) : M α :=
  fun st => (.ok a, st)

/-- Failing computation (the source's `err!`). -/
def M.throw {α : Type} (e : AuthError) : M α :=
  fun st => (.error e, st)

/-- Sequencing (the source's `and_then` on futures). -/
def M.bind {α β : Type} (x : M α) (f : α → M β) : M β :=
  fun st =>
    match x st with
    | (.ok a, st2) => f a st2
    | (.error e, st2) => (.error e, st2)

/-- The source's `then` combinator: the continuation observes the result,
success or failure, and turns it into a new result. -/
def M.onResult {α β : Type} (x : M α) (f : Except AuthError α → Except AuthError β) : M β :=
  fun st =>
    match x st with
    | (res, st2) => (f res, st2)

/-- Lift a pure fallible value (the source's `fry!` / `?`). -/
def M.ofExcept {α : Type} (x : Except AuthError α) : M α :=
  fun st => (x, st)

/-- Modelled from the spec: `config::list_apps`, the Registry listing
`list() -> mapping<hash, ApplicationKeyRecord>` with its config version. -/
def list_apps : M (Nat × Apps) :=
  fun st => (.ok (st.appsVersion, st.apps), st)

/-- Modelled from the spec: `config::insert_app`, Registry
`insert(record) -> unit`, failing if the identical key is already
present. -/
def insert_app (app : AppInfo) : M Unit :=
  fun st =>
    let h := sha3_256 app.info.id
    match lookupKey st.apps h with
    | some _ => (.error (AuthError.Unexpected "app is already registered"), st)
    | none =>
        (.ok (), { st with apps := insertKey st.apps h app,
                           appsVersion := st.appsVersion + 1 })

/-- Modelled from the spec: `config::get_revocation_queue`, the external
revocation source `pendingSet()`, absent when never written. -/
def get_revocation_queue : M (Option (Nat × List String)) :=
  fun st => (.ok st.revocationQueue, st)

/-- Modelled from the spec: `access_container::access_container`, returning
the descriptor of the user's access container object. -/
def access_container : M MDataInfo :=
  fun st => (.ok st.accessContainerDir, st)

/-- Modelled from the spec: `access_container::access_container_entry`,
the manifest `read(appId, keys) -> (version, optional ManifestEntry)`,
failing with no-such-entry when the entry was never created. -/
def access_container_entry (_dir : MDataInfo) (app_id : String) (_keys : AppKeys) :
    M (Nat × Option AccessContainerEntry) :=
  fun st =>
    match lookupKey st.manifest app_id with
    | some (version, entry) => (.ok (version, entry), st)
    | none => (.error noSuchEntryError, st)

/-- Modelled from the spec: `access_container::put_access_container_entry`,
the manifest CAS `write(appId, keys, entry, targetVersion)`: an insert must
target version `0`, an update must target `currentVersion + 1`, anything
else fails with a version conflict.  Every attempt is logged. -/
def put_access_container_entry (_dir : MDataInfo) (app_id : String) (_keys : AppKeys)
    (entry : AccessContainerEntry) (version : Nat) : M Unit :=
  fun st =>
    let st2 := { st with putLog := (app_id, version) :: st.putLog }
    match lookupKey st.manifest app_id with
    | some (current, _) =>
        if version == current + 1 then
          (.ok (), { st2 with manifest := insertKey st2.manifest app_id (version, some entry) })
        else
          (.error (versionConflictError current), st2)
    | none =>
        if version == 0 then
          (.ok (), { st2 with manifest := insertKey st2.manifest app_id (version, some entry) })
        else
          (.error (versionConflictError 0), st2)

/-- Modelled from the spec: `Client::list_auth_keys_and_version`, the
registrar's `currentVersion()` together with the current key list. -/
def list_auth_keys_and_version : M (List Nat × Nat) :=
  fun st => (.ok (st.authKeys, st.authKeysVersion), st)

/-- Modelled from the spec: `recovery::ins_auth_key`, the external CAS
registrar `appendKey(key, targetVersion)`; one CAS attempt, logged, its own
retry policy (if any) being outside this core's contract. -/
def ins_auth_key (key : Nat) (version : Nat) : M Unit :=
  fun st =>
    let st2 := { st with insAuthLog := (key, version) :: st.insAuthLog }
    if version == st.authKeysVersion + 1 then
      (.ok (), { st2 with authKeys := key :: st2.authKeys, authKeysVersion := version })
    else
      (.error (versionConflictError st.authKeysVersion), st2)

/-- Modelled from the spec: `app_container::fetch`, the idempotent
dedicated-container provisioner `fetch(appId, publicSigningKey)`: returns
the existing descriptor if already provisioned, creating it otherwise. -/
def app_container_fetch (app_id : String) (_sign_pk : Nat) : M MDataInfo :=
  fun st =>
    match lookupKey st.appContainers app_id with
    | some info => (.ok info, st)
    | none =>
        let info : MDataInfo := { name := "app-container-" ++ app_id, typeTag := 15002 }
        (.ok info, { st with appContainers := insertKey st.appContainers app_id info })

/-- Modelled from the spec: `ipc::update_container_perms`, the external
container-permission resolver `resolve(requestedMap) -> ManifestEntry`:
each requested logical container name is resolved to its descriptor with
the requested permission set attached. -/
def resolveContainers (permissions : List (String × PermSet)) : AccessContainerEntry :=
  permissions.map (fun p => (p.1, ({ name := "container-" ++ p.1, typeTag := 15000 }, p.2)))

/-- Modelled from the spec: monadic wrapper of the resolver (it performs
network permission updates on the user's containers, none of which are
observable to the authenticator core). -/
def update_container_perms (permissions : List (String × PermSet)) (_sign_pk : Nat) :
    M AccessContainerEntry :=
  fun st => (.ok (resolveContainers permissions), st)

/-- Modelled from the spec: `Client::bootstrap_config`, the network
bootstrap configuration included verbatim in the credential. -/
def bootstrap_config : Except AuthError Nat :=
  .ok 0

/-- Modelled from the spec: `Client::owner_key`, the network owner's public
key of the current session. -/
def owner_key : M Nat :=
  fun st => (.ok st.ownerKey, st)

/-- Modelled from the spec: `AppKeys::random(owner_key)`, minting fresh key
material under the owner's key context; freshness is modelled by drawing
from the monotone counter `freshCtr`. -/
def random_app_keys (owner : Nat) : M AppKeys :=
  fun st =>
    (.ok { owner_key := owner, sign_pk := st.freshCtr, enc_key := st.freshCtr + 1 },
     { st with freshCtr := st.freshCtr + 2 })

/-- The classification continuation inside `app_state` (the closure passed
to `then` at `app_auth.rs:60-72`): a present entry means `Authenticated`, a
successful read with no value or a no-such-entry failure means `Revoked`,
and any other failure propagates unchanged. -/
def appStateClassify (res : Except AuthError (Nat × Option AccessContainerEntry)) :
    Except AuthError AppState :=
  match res with
  | .ok (_version, some _) => .ok AppState.Authenticated
  | .ok (_, none) => .ok AppState.Revoked
  | .error (AuthError.CoreError (CoreError.RoutingClientError ClientError.NoSuchEntry)) =>
      .ok AppState.Revoked
  | .error e => .error e

/-- Return the current app state (`app_state`, `app_auth.rs:50-77`): if the
hash of the id is absent from the registry listing the app is
`NotAuthenticated` and the manifest is not consulted; otherwise the manifest
entry is fetched with the stored keys and classified. -/
def app_state (apps : Apps) (app_id : String) : M AppState :=
  fun st =>
    let app_id_hash := sha3_256 app_id
    match lookupKey apps app_id_hash with
    | some app =>
        (M.onResult
          (M.bind access_container (fun dir =>
            access_container_entry dir app_id app.keys))
          appStateClassify) st
    | none => (M.pure AppState.NotAuthenticated) st

/-- The target-version continuation inside `update_access_container` (the
closure passed to `then` at `app_auth.rs:111-123`): a successful read
targets `currentVersion + 1`, a no-such-entry failure targets a fresh
insert at `0`, any other read failure propagates. -/
def targetVersion (res : Except AuthError (Nat × Option AccessContainerEntry)) :
    Except AuthError Nat :=
  match res with
  | .ok (version, _) => .ok (version + 1)
  | .error (AuthError.CoreError (CoreError.RoutingClientError ClientError.NoSuchEntry)) =>
      .ok 0
  | .error e => .error e

/-- Read-compute-write against the access container
(`update_access_container`, `app_auth.rs:97-130`): read the current entry
and version, compute the target version, then perform one write of the
supplied entry at that version and return the container's descriptor. -/
def update_access_container (app : AppInfo) (permissions : AccessContainerEntry) :
    M MDataInfo :=
  M.bind access_container (fun dir =>
  M.bind (M.onResult (access_container_entry dir app.info.id app.keys) targetVersion)
    (fun version =>
  M.bind (put_access_container_entry dir app.info.id app.keys permissions version)
    (fun _ => M.pure dir)))

/-- The revocation guard (`check_revocation`, `app_auth.rs:310-325`): read
the revocation queue (defaulting to empty when unset) and fail when the app
id is pending revocation. -/
def check_revocation (app_id : String) : M Unit :=
  M.bind (M.bind get_revocation_queue (fun queue =>
    M.pure (match queue with
            | some (_, q) => q
            | none => [])))
    (fun queue =>
      if queue.contains app_id then
        M.throw (AuthError.Unexpected "Could not authenticate app that is pending revocation")
      else
        M.pure ())

/-- The requested-container permission step of the register pipeline (the
closure at `app_auth.rs:279-285`): an empty request map yields the default
(empty) entry without calling the resolver, otherwise the resolver is
invoked. -/
def computePerms (permissions : List (String × PermSet)) (sign_pk : Nat) :
    M (AccessContainerEntry × Nat) :=
  if permissions.isEmpty then
    M.pure (([] : AccessContainerEntry), sign_pk)
  else
    M.bind (update_container_perms permissions sign_pk) (fun perms =>
      M.pure (perms, sign_pk))

/-- Return info of an already registered app (`authenticated_app`,
`app_auth.rs:202-248`).  When `app_container` is set, the dedicated
container is created/updated and the manifest rewritten; otherwise only the
access container descriptor is read. -/
def authenticated_app (app : AppInfo) (app_id : String) (app_container : Bool) :
    M AuthGranted :=
  let app_keys := app.keys
  let app_keys_auth := app.keys
  let sign_pk := app.keys.sign_pk
  M.bind (M.ofExcept bootstrap_config) (fun bootstrap_cfg =>
  M.bind
    (if app_container then
      M.bind access_container (fun dir =>
      M.bind (access_container_entry dir app_id app_keys) (fun p =>
      let perms := p.2.getD ([] : AccessContainerEntry)
      M.bind (app_container_fetch app_id sign_pk) (fun mdata_info =>
      update_access_container app (insert_app_container perms app_id mdata_info))))
    else
      access_container)
    (fun dir =>
      M.ofExcept
        (match AccessContInfo.from_mdata_info dir with
         | .ok access_cont =>
             .ok { app_keys := app_keys_auth,
                   bootstrap_config := bootstrap_cfg,
                   access_container := access_cont }
         | .error e => .error e)))

/-- Register a new or revoked app (`authenticate_new_app`,
`app_auth.rs:257-308`): append the signing key to the auth-key list at
`version + 1`, compute the requested container permissions, merge in the
dedicated container when requested, write the access container entry, and
build the credential. -/
def authenticate_new_app (app : AppInfo) (app_container : Bool)
    (permissions : List (String × PermSet)) : M AuthGranted :=
  let sign_pk := app.keys.sign_pk
  let app_keys := app.keys
  let app_keys_auth := app.keys
  let app_id := app.info.id
  M.bind (M.bind list_auth_keys_and_version (fun p =>
    ins_auth_key app_keys.sign_pk (p.2 + 1)))
  (fun _ =>
  M.bind (computePerms permissions sign_pk) (fun pp =>
  M.bind
    (if app_container then
      M.bind (app_container_fetch app_id pp.2) (fun mdata_info =>
        M.pure (insert_app_container pp.1 app_id mdata_info))
    else
      M.pure pp.1)
    (fun perms =>
  M.bind (update_access_container app perms) (fun dir =>
    M.ofExcept
      (match bootstrap_config with
       | .ok bc =>
           match AccessContInfo.from_mdata_info dir with
           | .ok access_cont =>
               .ok { app_keys := app_keys_auth,
                     bootstrap_config := bc,
                     access_container := access_cont }
           | .error e => .error e
       | .error e => .error e)))))

/-- The record-preparation step of `authenticate` (the closure at
`app_auth.rs:154-183`): a `NotAuthenticated` app gets fresh keys minted
under the owner's key and is persisted to the registry; an `Authenticated`
or `Revoked` app must already be in the registry snapshot (the source
removes and returns the record; only the returned record is used), its
absence being a fatal logical error. -/
def prepareApp (req_app : AppExchangeInfo) (config : Apps) (state : AppState)
    (app_id : String) : M (AppInfo × AppState × String) :=
  match state with
  | AppState.NotAuthenticated =>
      M.bind owner_key (fun owner =>
      M.bind (random_app_keys owner) (fun keys =>
      let app : AppInfo := { info := req_app, keys := keys }
      M.bind (insert_app app) (fun _ => M.pure (app, state, app_id))))
  | AppState.Authenticated | AppState.Revoked =>
      let app_entry_name := sha3_256 app_id
      match lookupKey config app_entry_name with
      | some app => M.pure (app, state, app_id)
      | none =>
          M.throw (AuthError.Unexpected
            "Logical error - could not find a revoked app in config")

/-- The dispatch step of `authenticate` (the closure at
`app_auth.rs:184-196`): an `Authenticated` app goes to the re-grant
pipeline, a `NotAuthenticated` or `Revoked` app to the register
pipeline. -/
def dispatchApp (app_container : Bool) (permissions : List (String × PermSet))
    (app : AppInfo) (state : AppState) (app_id : String) : M AuthGranted :=
  match state with
  | AppState.Authenticated => authenticated_app app app_id app_container
  | AppState.NotAuthenticated | AppState.Revoked =>
      authenticate_new_app app app_container permissions

/-- Authenticate an app request (`authenticate`, `app_auth.rs:137-198`):
fetch the registry listing and run the revocation guard (joined), resolve
the app state, prepare the record, and dispatch to the proper pipeline. -/
def authenticate (auth_req : AuthReq) : M AuthGranted :=
  let app_id := auth_req.app.id
  let permissions := auth_req.containers
  let app_container := auth_req.app_container
  M.bind (M.bind list_apps (fun la =>
    M.bind (check_revocation app_id) (fun _ => M.pure la)))
  (fun la =>
  M.bind (M.bind (app_state la.2 app_id) (fun s =>
    M.pure (la.2, s, app_id)))
  (fun t =>
  M.bind (prepareApp auth_req.app t.1 t.2.1 t.2.2) (fun r =>
    dispatchApp app_container permissions r.1 r.2.1 r.2.2)))

/-- The revocation queue read by the guard, defaulting to empty when the
queue object is unset (the `unwrap`-with-default in `check_revocation`). -/
def queueOf (st : World) : List String :=
  match st.revocationQueue with
  | some (_, q) => q
  | none => []

/-- The policy error raised when an app is pending revocation. -/
def pendingRevocationError : AuthError :=
  AuthError.Unexpected "Could not authenticate app that is pending revocation"

/-- The fatal logical-invariant error raised when a resolved
`Authenticated`/`Revoked` app has no registry record. -/
def logicalError : AuthError :=
  AuthError.Unexpected "Logical error - could not find a revoked app in config"

/-- A sample registered application, used as a concrete test fixture. -/
def sampleApp : AppInfo :=
  { info := { id := "app.demo", name := "Demo", vendor := "MaidSafe" },
    keys := { owner_key := 7, sign_pk := 100, enc_key := 101 } }

/-- A sample fresh world, used as a concrete test fixture. -/
def sampleWorld : World :=
  { ownerKey := 7,
    freshCtr := 0,
    appsVersion := 0,
    apps := [],
    accessContainerDir := { name := "access-container", typeTag := 1000 },
    manifest := [],
    authKeys := [],
    authKeysVersion := 0,
    revocationQueue := none,
    appContainers := [],
    putLog := [],
    insAuthLog := [] }

theorem lookupKey_insertKey_self {α : Type} (m : List (String × α)) (k : String) (v : α) :
    lookupKey (insertKey m k v) k = some v := by
  simp [lookupKey, insertKey, List.find?]

theorem find?_filter_ne {α : Type} (m : List (String × α)) (k k' : String) (h : k' ≠ k) :
    List.find? (fun p => p.1 == k') (m.filter (fun p => p.1 != k)) =
      List.find? (fun p => p.1 == k') m := by
  induction m with
  | nil => rfl
  | cons a t ih =>
    by_cases hak : a.1 = k
    · have hk : (a.1 != k) = false := by simp [hak]
      have hne : (a.1 == k') = false := by simp [hak, Ne.symm h]
      simp [List.filter_cons, hk, List.find?, hne, ih]
    · have hk : (a.1 != k) = true := by simp [hak]
      by_cases ha : a.1 = k'
      · simp [List.filter_cons, hk, List.find?, ha, h, ih]
      · have hne : (a.1 == k') = false := by simp [ha]
        simp [List.filter_cons, hk, List.find?, hne, ih]

theorem lookupKey_insertKey_ne {α : Type} (m : List (String × α)) (k k' : String) (v : α)
    (h : k' ≠ k) : lookupKey (insertKey m k v) k' = lookupKey m k' := by
  have hne : (k == k') = false := by
    simp [(Ne.symm h)]
  simp [lookupKey, insertKey, List.find?, hne, find?_filter_ne m k k' h]

theorem insert_app_container_idem (m : AccessContainerEntry) (app_id : String)
    (info : MDataInfo) :
    insert_app_container (insert_app_container m app_id info) app_id info =
      insert_app_container m app_id info := by
  simp [insert_app_container, insertKey, List.filter_filter]

/-- C7: the dedicated-container entry builder is a pure transform: it maps
the key `apps/<app_id>` to the given descriptor with the full permission
set `{Read, Insert, Update, Delete, ManagePermissions}`, leaves every other
key's mapping unchanged (never removes or weakens it), and is idempotent —
applying it twice with the same descriptor yields the same merged entry as
applying it once. -/
theorem insert_app_container_spec :
    (∀ (m : AccessContainerEntry) (app_id : String) (info : MDataInfo),
      lookupKey (insert_app_container m app_id info) ("apps/" ++ app_id) =
        some (info, fullAccess)) ∧
    (∀ (m : AccessContainerEntry) (app_id : String) (info : MDataInfo) (k : String),
      k ≠ "apps/" ++ app_id →
      lookupKey (insert_app_container m app_id info) k = lookupKey m k) ∧
    (∀ (m : AccessContainerEntry) (app_id : String) (info : MDataInfo),
      insert_app_container (insert_app_container m app_id info) app_id info =
        insert_app_container m app_id info) := by
  refine ⟨?_, ?_, ?_⟩
  · intro m app_id info
    exact lookupKey_insertKey_self m ("apps/" ++ app_id) (info, fullAccess)
  · intro m app_id info k hk
    exact lookupKey_insertKey_ne m ("apps/" ++ app_id) k (info, fullAccess) hk
  · intro m app_id info
    exact insert_app_container_idem m app_id info

theorem insert_app_container_spec_witness :
    lookupKey
      (insert_app_container
        [("docs", ({ name := "docs-container", typeTag := 1 }, ({Permission.Read} : PermSet)))]
        "app.demo" { name := "demo-container", typeTag := 2 })
      "docs" =
      lookupKey
        [("docs", ({ name := "docs-container", typeTag := 1 }, ({Permission.Read} : PermSet)))]
        "docs" :=
  insert_app_container_spec.2.1
    [("docs", ({ name := "docs-container", typeTag := 1 }, ({Permission.Read} : PermSet)))]
    "app.demo" { name := "demo-container", typeTag := 2 } "docs" (by decide)

/-- C10: applied to an entry that already maps `apps/<app_id>` (to any
descriptor and permission set), the dedicated-container entry builder
overwrites that mapping with the new descriptor and the full
five-permission set, while the mapping under every other key is left
unchanged. -/
theorem insert_app_container_overwrite (m : AccessContainerEntry) (app_id : String)
    (info : MDataInfo) (old : MDataInfo × PermSet)
    (h : lookupKey m ("apps/" ++ app_id) = some old) :
    lookupKey (insert_app_container m app_id info) ("apps/" ++ app_id) =
      some (info, fullAccess) ∧
    (∀ (k : String), k ≠ "apps/" ++ app_id →
      lookupKey (insert_app_container m app_id info) k = lookupKey m k) := by
  refine ⟨lookupKey_insertKey_self m ("apps/" ++ app_id) (info, fullAccess), ?_⟩
  intro k hk
  exact lookupKey_insertKey_ne m ("apps/" ++ app_id) k (info, fullAccess) hk

theorem insert_app_container_overwrite_witness :
    lookupKey
      (insert_app_container
        [("apps/app.demo", ({ name := "old-container", typeTag := 9 }, ({Permission.Read} : PermSet)))]
        "app.demo" { name := "new-container", typeTag := 2 })
      "apps/app.demo" =
      some ({ name := "new-container", typeTag := 2 }, fullAccess) :=
  (insert_app_container_overwrite
    [("apps/app.demo", ({ name := "old-container", typeTag := 9 }, ({Permission.Read} : PermSet)))]
    "app.demo" { name := "new-container", typeTag := 2 }
    ({ name := "old-container", typeTag := 9 }, ({Permission.Read} : PermSet)) (by decide)).1

/-- C2: the state resolver returns `NotAuthenticated` when the hash of the
identifier is absent from the registry listing, whatever the manifest
holds; with a listed record it returns `Authenticated` when the manifest
entry is present and `Revoked` when the manifest lookup fails with
no-such-entry; any other lookup failure is propagated unchanged by the
classification continuation. -/
theorem app_state_spec :
    (∀ (apps : Apps) (app_id : String) (st : World),
      lookupKey apps (sha3_256 app_id) = none →
      app_state apps app_id st = (.ok AppState.NotAuthenticated, st)) ∧
    (∀ (apps : Apps) (app_id : String) (st : World) (app : AppInfo) (v : Nat)
       (e : AccessContainerEntry),
      lookupKey apps (sha3_256 app_id) = some app →
      lookupKey st.manifest app_id = some (v, some e) →
      app_state apps app_id st = (.ok AppState.Authenticated, st)) ∧
    (∀ (apps : Apps) (app_id : String) (st : World) (app : AppInfo),
      lookupKey apps (sha3_256 app_id) = some app →
      lookupKey st.manifest app_id = none →
      app_state apps app_id st = (.ok AppState.Revoked, st)) ∧
    (∀ (e : AuthError), e ≠ noSuchEntryError →
      appStateClassify (.error e) = .error e) := by
  refine ⟨?_, ?_, ?_, ?_⟩
  · intro apps app_id st h
    simp [app_state, h, M.pure]
  · intro apps app_id st app v e h hm
    simp [app_state, h, M.onResult, M.bind, access_container, access_container_entry,
      hm, appStateClassify]
  · intro apps app_id st app h hm
    simp [app_state, h, M.onResult, M.bind, access_container, access_container_entry,
      hm, appStateClassify, noSuchEntryError]
  · intro e he
    cases e with
    | Unexpected msg => rfl
    | CoreError ce =>
      cases ce with
      | OtherCore code => rfl
      | RoutingClientError cl =>
        cases cl with
        | NoSuchEntry => exact absurd rfl he
        | InvalidSuccessor current => rfl
        | OtherClient code => rfl

theorem app_state_spec_witness :
    app_state [] "app.demo" sampleWorld = (.ok AppState.NotAuthenticated, sampleWorld) :=
  app_state_spec.1 [] "app.demo" sampleWorld rfl

/-- C9: the classification continuation of the state resolver treats a
successful manifest read yielding no entry value as `Revoked` (in addition
to the no-such-entry failure), and yields `Authenticated` exactly for a
successful read with a present entry; accordingly `app_state` returns
`Revoked` for a listed app whose manifest cell holds `(version, None)`. -/
theorem app_state_empty_entry_revoked :
    (∀ (v : Nat), appStateClassify (.ok (v, none)) = .ok AppState.Revoked) ∧
    (∀ (res : Except AuthError (Nat × Option AccessContainerEntry)),
      appStateClassify res = .ok AppState.Authenticated ↔
        ∃ (v : Nat) (e : AccessContainerEntry), res = .ok (v, some e)) ∧
    (∀ (apps : Apps) (app_id : String) (st : World) (app : AppInfo) (v : Nat),
      lookupKey apps (sha3_256 app_id) = some app →
      lookupKey st.manifest app_id = some (v, none) →
      app_state apps app_id st = (.ok AppState.Revoked, st)) := by
  refine ⟨?_, ?_, ?_⟩
  · intro v
    rfl
  · intro res
    constructor
    · intro h
      match res with
      | .ok (v, some e) => exact ⟨v, e, rfl⟩
      | .ok (v, none) => simp [appStateClassify] at h
      | .error e =>
        cases e with
        | Unexpected msg => simp [appStateClassify] at h
        | CoreError ce =>
          cases ce with
          | OtherCore code => simp [appStateClassify] at h
          | RoutingClientError cl =>
            cases cl with
            | NoSuchEntry => simp [appStateClassify] at h
            | InvalidSuccessor current => simp [appStateClassify] at h
            | OtherClient code => simp [appStateClassify] at h
    · rintro ⟨v, e, rfl⟩
      rfl
  · intro apps app_id st app v h hm
    simp [app_state, h, M.onResult, M.bind, access_container, access_container_entry,
      hm, appStateClassify]

theorem app_state_empty_entry_revoked_witness :
    app_state [(sha3_256 "app.demo", sampleApp)] "app.demo"
        { sampleWorld with manifest := [("app.demo", (3, none))] } =
      (.ok AppState.Revoked, { sampleWorld with manifest := [("app.demo", (3, none))] }) :=
  app_state_empty_entry_revoked.2.2 [(sha3_256 "app.demo", sampleApp)] "app.demo"
    { sampleWorld with manifest := [("app.demo", (3, none))] } sampleApp 3 rfl rfl

/-- C3: the manifest accessor reads the current entry and version first: a
no-such-entry read makes the single write target version `0`, a successful
read at version `v` makes it target `v + 1`, any other read failure is
propagated by the target-version continuation; exactly one write attempt is
logged, and a write at a conflicting version comes back as a hard
version-conflict error with the manifest left unchanged (no internal
retry). -/
theorem update_access_container_spec :
    (∀ (st : World) (app : AppInfo) (perms : AccessContainerEntry),
      lookupKey st.manifest app.info.id = none →
      update_access_container app perms st =
        (.ok st.accessContainerDir,
         { st with manifest := insertKey st.manifest app.info.id (0, some perms),
                   putLog := (app.info.id, 0) :: st.putLog })) ∧
    (∀ (st : World) (app : AppInfo) (perms : AccessContainerEntry) (v : Nat)
       (e : Option AccessContainerEntry),
      lookupKey st.manifest app.info.id = some (v, e) →
      update_access_container app perms st =
        (.ok st.accessContainerDir,
         { st with manifest := insertKey st.manifest app.info.id (v + 1, some perms),
                   putLog := (app.info.id, v + 1) :: st.putLog })) ∧
    (∀ (e : AuthError), e ≠ noSuchEntryError → targetVersion (.error e) = .error e) ∧
    (∀ (st : World) (dir : MDataInfo) (app_id : String) (keys : AppKeys)
       (entry : AccessContainerEntry) (version v : Nat) (e : Option AccessContainerEntry),
      lookupKey st.manifest app_id = some (v, e) → version ≠ v + 1 →
      put_access_container_entry dir app_id keys entry version st =
        (.error (versionConflictError v),
         { st with putLog := (app_id, version) :: st.putLog })) := by
  refine ⟨?_, ?_, ?_, ?_⟩
  · intro st app perms h
    simp [update_access_container, M.bind, M.onResult, M.pure, access_container,
      access_container_entry, h, targetVersion, noSuchEntryError, put_access_container_entry]
  · intro st app perms v e h
    simp [update_access_container, M.bind, M.onResult, M.pure, access_container,
      access_container_entry, h, targetVersion, put_access_container_entry]
  · intro e he
    cases e with
    | Unexpected msg => rfl
    | CoreError ce =>
      cases ce with
      | OtherCore code => rfl
      | RoutingClientError cl =>
        cases cl with
        | NoSuchEntry => exact absurd rfl he
        | InvalidSuccessor current => rfl
        | OtherClient code => rfl
  · intro st dir app_id keys entry version v e h hv
    have hb : (version == v + 1) = false := by simp [hv]
    simp [put_access_container_entry, h, hb]

theorem update_access_container_spec_witness :
    update_access_container sampleApp [] sampleWorld =
      (.ok sampleWorld.accessContainerDir,
       { sampleWorld with
           manifest := insertKey sampleWorld.manifest sampleApp.info.id (0, some []),
           putLog := (sampleApp.info.id, 0) :: sampleWorld.putLog }) :=
  update_access_container_spec.1 sampleWorld sampleApp [] rfl

/-- C4: the re-grant path without a dedicated-container request performs no
write at all — the world (manifest value, versions and write logs included)
is returned unchanged — and produces a credential built from the record's
existing keys and the access container's existing descriptor. -/
theorem authenticated_app_no_container_spec (st : World) (app : AppInfo) (app_id : String) :
    authenticated_app app app_id false st =
      (.ok { app_keys := app.keys, bootstrap_config := 0,
             access_container := st.accessContainerDir }, st) :=
  rfl

/-- C6: the revocation guard reads the queue (defaulting to empty when the
queue object is unset) and fails with the pending-revocation policy error
exactly when the identifier is a member, succeeding with no value
otherwise; an `authenticate` request for a pending-revocation identifier
fails with that error and leaves the world — registry and manifest included
— completely unchanged. -/
theorem check_revocation_spec :
    (∀ (st : World) (app_id : String),
      (queueOf st).contains app_id = true →
      check_revocation app_id st = (.error pendingRevocationError, st)) ∧
    (∀ (st : World) (app_id : String),
      (queueOf st).contains app_id = false →
      check_revocation app_id st = (.ok (), st)) ∧
    (∀ (st : World) (app_id : String),
      st.revocationQueue = none → check_revocation app_id st = (.ok (), st)) ∧
    (∀ (st : World) (req : AuthReq),
      (queueOf st).contains req.app.id = true →
      authenticate req st = (.error pendingRevocationError, st)) := by
  refine ⟨?_, ?_, ?_, ?_⟩
  · intro st app_id h
    rcases hq : st.revocationQueue with _ | ⟨ver, q⟩
    · simp [queueOf, hq] at h
    · simp [queueOf, hq] at h
      simp [check_revocation, M.bind, M.pure, M.throw, get_revocation_queue, hq, h,
        pendingRevocationError]
  · intro st app_id h
    rcases hq : st.revocationQueue with _ | ⟨ver, q⟩
    · simp [check_revocation, M.bind, M.pure, M.throw, get_revocation_queue, hq]
    · simp [queueOf, hq] at h
      simp [check_revocation, M.bind, M.pure, M.throw, get_revocation_queue, hq, h]
  · intro st app_id hq
    simp [check_revocation, M.bind, M.pure, M.throw, get_revocation_queue, hq]
  · intro st req h
    rcases hq : st.revocationQueue with _ | ⟨ver, q⟩
    · simp [queueOf, hq] at h
    · simp [queueOf, hq] at h
      simp [authenticate, check_revocation, M.bind, M.pure, M.throw, list_apps,
        get_revocation_queue, hq, h, pendingRevocationError]

theorem check_revocation_spec_witness :
    check_revocation "app.demo"
        { sampleWorld with revocationQueue := some (0, ["app.demo"]) } =
      (.error pendingRevocationError,
       { sampleWorld with revocationQueue := some (0, ["app.demo"]) }) :=
  check_revocation_spec.1 { sampleWorld with revocationQueue := some (0, ["app.demo"]) }
    "app.demo" (by decide)

/-- C8: the register pipeline's container-permission step yields the empty
entry when the request's container-permission map is empty (the external
resolver plays no part in the result), and otherwise yields the resolver's
result, which maps each requested container name to its descriptor with the
requested permission set attached. -/
theorem computePerms_spec :
    (∀ (perms : List (String × PermSet)) (pk : Nat) (st : World),
      perms.isEmpty = true →
      computePerms perms pk st = (.ok (([] : AccessContainerEntry), pk), st)) ∧
    (∀ (perms : List (String × PermSet)) (pk : Nat) (st : World),
      perms.isEmpty = false →
      computePerms perms pk st = (.ok (resolveContainers perms, pk), st)) ∧
    (∀ (perms : List (String × PermSet)),
      (resolveContainers perms).map (fun p => (p.1, p.2.2)) = perms) := by
  refine ⟨?_, ?_, ?_⟩
  · intro perms pk st h
    simp [computePerms, h, M.pure]
  · intro perms pk st h
    simp [computePerms, h, M.bind, M.pure, update_container_perms]
  · intro perms
    simp only [resolveContainers, List.map_map]
    induction perms with
    | nil => rfl
    | cons p t ih => simp [ih]

theorem computePerms_spec_witness :
    computePerms [("docs", ({Permission.Read} : PermSet))] 5 sampleWorld =
      (.ok (resolveContainers [("docs", ({Permission.Read} : PermSet))], 5), sampleWorld) :=
  computePerms_spec.2.1 [("docs", ({Permission.Read} : PermSet))] 5 sampleWorld rfl

/-- C5: the register pipeline's first step reads the auth-key list's
current version and makes exactly one append attempt of the app's public
signing key at `version + 1`: across the whole pipeline the append log
gains exactly that one entry, and the list version advances exactly
once. -/
theorem authenticate_new_app_single_key_append (st : World) (app : AppInfo)
    (app_container : Bool) (permissions : List (String × PermSet)) :
    ((authenticate_new_app app app_container permissions) st).2.insAuthLog =
      (app.keys.sign_pk, st.authKeysVersion + 1) :: st.insAuthLog ∧
    ((authenticate_new_app app app_container permissions) st).2.authKeysVersion =
      st.authKeysVersion + 1 := by
  rcases hman : lookupKey st.manifest app.info.id with _ | ⟨v, e⟩ <;>
  rcases hac : lookupKey st.appContainers app.info.id with _ | ci <;>
  cases app_container <;>
  by_cases hp : permissions.isEmpty <;>
  constructor <;>
  simp [authenticate_new_app, M.bind, M.pure, M.ofExcept, list_auth_keys_and_version,
    ins_auth_key, computePerms, update_container_perms, app_container_fetch,
    update_access_container, M.onResult, access_container, access_container_entry,
    targetVersion, noSuchEntryError, put_access_container_entry,
    AccessContInfo.from_mdata_info, bootstrap_config, hman, hac, hp]

theorem authenticate_new_app_result (app : AppInfo) (ac : Bool)
    (perms : List (String × PermSet)) (st : World) :
    (authenticate_new_app app ac perms st).1 =
      .ok { app_keys := app.keys, bootstrap_config := 0,
            access_container := st.accessContainerDir } := by
  rcases hman : lookupKey st.manifest app.info.id with _ | ⟨v, e⟩ <;>
  rcases hac : lookupKey st.appContainers app.info.id with _ | ci <;>
  cases ac <;>
  by_cases hp : perms.isEmpty <;>
  simp [authenticate_new_app, M.bind, M.pure, M.ofExcept, list_auth_keys_and_version,
    ins_auth_key, computePerms, update_container_perms, app_container_fetch,
    update_access_container, M.onResult, access_container, access_container_entry,
    targetVersion, noSuchEntryError, put_access_container_entry,
    AccessContInfo.from_mdata_info, bootstrap_config, hman, hac, hp]

theorem authenticated_app_keys (app : AppInfo) (app_id : String) (ac : Bool)
    (st : World) (g : AuthGranted) (st2 : World)
    (h : authenticated_app app app_id ac st = (.ok g, st2)) : g.app_keys = app.keys := by
  cases ac with
  | false =>
    have h1 : (Except.ok { app_keys := app.keys,
                           bootstrap_config := 0,
                           access_container := st.accessContainerDir } :
        Except AuthError AuthGranted) = .ok g := congrArg Prod.fst h
    injection h1 with h2
    rw [← h2]
  | true =>
    rcases hman : lookupKey st.manifest app_id with _ | ⟨v, e⟩ <;>
    rcases hman2 : lookupKey st.manifest app.info.id with _ | ⟨v2, e2⟩ <;>
    rcases hac2 : lookupKey st.appContainers app_id with _ | ci <;>
    simp [authenticated_app, M.bind, M.pure, M.ofExcept, access_container,
      access_container_entry, app_container_fetch, update_access_container, M.onResult,
      targetVersion, noSuchEntryError, put_access_container_entry,
      AccessContInfo.from_mdata_info, bootstrap_config, insert_app_container,
      hman, hman2, hac2] at h <;>
    rw [← h.1]

/-- C1: the orchestrator's record-preparation step mints fresh keys under
the owner's key and persists the new record to the registry when the
resolved state is `NotAuthenticated`; for `Authenticated` or `Revoked` it
extracts the record from the in-memory registry snapshot, failing with the
fatal logical error when the record is absent and otherwise passing the
stored record through unchanged (keys byte-for-byte); the dispatch step
sends `Authenticated` to the re-grant pipeline and `NotAuthenticated` and
`Revoked` to the register pipeline, and both pipelines build the credential
from the prepared record's keys. -/
theorem authenticate_dispatch_spec :
    (∀ (st : World) (req_app : AppExchangeInfo) (config : Apps) (app_id : String),
      lookupKey st.apps (sha3_256 req_app.id) = none →
      prepareApp req_app config AppState.NotAuthenticated app_id st =
        (.ok ({ info := req_app,
                keys := { owner_key := st.ownerKey, sign_pk := st.freshCtr,
                          enc_key := st.freshCtr + 1 } },
              AppState.NotAuthenticated, app_id),
         { st with
             freshCtr := st.freshCtr + 2,
             apps := insertKey st.apps (sha3_256 req_app.id)
               { info := req_app,
                 keys := { owner_key := st.ownerKey, sign_pk := st.freshCtr,
                           enc_key := st.freshCtr + 1 } },
             appsVersion := st.appsVersion + 1 })) ∧
    (∀ (st : World) (config : Apps) (app_id : String) (req_app : AppExchangeInfo)
       (s : AppState), s = AppState.Authenticated ∨ s = AppState.Revoked →
      lookupKey config (sha3_256 app_id) = none →
      prepareApp req_app config s app_id st = (.error logicalError, st)) ∧
    (∀ (st : World) (config : Apps) (app_id : String) (req_app : AppExchangeInfo)
       (s : AppState) (app : AppInfo), s = AppState.Authenticated ∨ s = AppState.Revoked →
      lookupKey config (sha3_256 app_id) = some app →
      prepareApp req_app config s app_id st = (.ok (app, s, app_id), st)) ∧
    (∀ (ac : Bool) (perms : List (String × PermSet)) (app : AppInfo) (app_id : String),
      dispatchApp ac perms app AppState.Authenticated app_id =
        authenticated_app app app_id ac ∧
      dispatchApp ac perms app AppState.Revoked app_id =
        authenticate_new_app app ac perms ∧
      dispatchApp ac perms app AppState.NotAuthenticated app_id =
        authenticate_new_app app ac perms) ∧
    (∀ (app : AppInfo) (ac : Bool) (perms : List (String × PermSet)) (st : World)
       (g : AuthGranted) (st2 : World),
      authenticate_new_app app ac perms st = (.ok g, st2) → g.app_keys = app.keys) ∧
    (∀ (app : AppInfo) (app_id : String) (ac : Bool) (st : World) (g : AuthGranted)
       (st2 : World),
      authenticated_app app app_id ac st = (.ok g, st2) → g.app_keys = app.keys) := by
  refine ⟨?_, ?_, ?_, ?_, ?_, ?_⟩
  · intro st req_app config app_id h
    simp [prepareApp, M.bind, M.pure, owner_key, random_app_keys, insert_app, h]
  · intro st config app_id req_app s hs h
    rcases hs with rfl | rfl <;> simp [prepareApp, h, M.throw, logicalError]
  · intro st config app_id req_app s app hs h
    rcases hs with rfl | rfl <;> simp [prepareApp, h, M.pure]
  · intro ac perms app app_id
    exact ⟨rfl, rfl, rfl⟩
  · intro app ac perms st g st2 h
    have h1 := congrArg Prod.fst h
    rw [authenticate_new_app_result] at h1
    have h2 : (Except.ok { app_keys := app.keys,
                           bootstrap_config := 0,
                           access_container := st.accessContainerDir } :
        Except AuthError AuthGranted) = .ok g := h1
    injection h2 with h3
    rw [← h3]
  · intro app app_id ac st g st2 h
    exact authenticated_app_keys app app_id ac st g st2 h

theorem authenticate_dispatch_spec_witness :
    prepareApp sampleApp.info [] AppState.NotAuthenticated "app.demo" sampleWorld =
      (.ok ({ info := sampleApp.info,
              keys := { owner_key := sampleWorld.ownerKey, sign_pk := sampleWorld.freshCtr,
                        enc_key := sampleWorld.freshCtr + 1 } },
            AppState.NotAuthenticated, "app.demo"),
       { sampleWorld with
           freshCtr := sampleWorld.freshCtr + 2,
           apps := insertKey sampleWorld.apps (sha3_256 sampleApp.info.id)
             { info := sampleApp.info,
               keys := { owner_key := sampleWorld.ownerKey, sign_pk := sampleWorld.freshCtr,
                         enc_key := sampleWorld.freshCtr + 1 } },
           appsVersion := sampleWorld.appsVersion + 1 }) ∧
    prepareApp sampleApp.info [] AppState.Revoked "app.demo" sampleWorld =
      (.error logicalError, sampleWorld) :=
  ⟨authenticate_dispatch_spec.1 sampleWorld sampleApp.info [] "app.demo" rfl,
   authenticate_dispatch_spec.2.1 sampleWorld [] "app.demo" sampleApp.info
     AppState.Revoked (Or.inr rfl) rfl⟩
